import Mathlib

/-!
# Verification of the kalk-rs RPN calculator core

Shallow embedding of the token-classification and stack-evaluation engine of
kalk-rs (`src/lib.rs`, `src/binary.rs`, `src/unary.rs`, `src/special.rs`).

Modelling conventions:
* `f64` values are modelled as `ℚ` (exact rational arithmetic).  IEEE-754
  rounding, `NaN` and infinities are outside the model; every operation the
  claims below depend on (comparisons, push/pop, Euclidean remainder on exact
  inputs, factorial/permutation products that stay within the exactly
  representable integer range) is exact in both the model and the program.
* Transcendental handlers (`sqrt`, `sin`, …, `powf`, `log`, `atan2`) and the
  constants `pi`/`e` cannot be defined on `ℚ`; they are collected in a
  `FloatOps` parameter, and all theorems quantify over it.
* `str::parse::<f64>` is standard-library code, not repository code; it is a
  parameter `parse : String → Option ℚ` of `process_token`.  Theorems about a
  concrete operator token assume that token does not parse as a number (true
  of the real parser for every registered token).
* The evaluation stack is a `List StackItem` whose head is the stack top
  (Rust pushes/pops at the end of the `Vec`).
* `HashMap<String, f64>` storage is an association list with first-match
  lookup; `insert` replaces any previous binding.
* The `println!` side channel of `display_base`/`display_help` is modelled as
  a list of `OutputEvent`s returned by the call.  For `display_base` the full
  printed line is modelled; for help, which mode was requested (full listing
  vs. one entry) is modelled — the listing text itself is presentation done
  by the output collaborator and carries no stack semantics.
* Rust `to_lowercase` is modelled by ASCII `String.toLower`; the two agree on
  every string whose lowercasing can match a registry key (all keys are
  ASCII).
-/

namespace KalkRs

/-- Truncation toward zero (`as i64` casts in the source truncate). -/
def ratTrunc (x : ℚ) : ℤ := if x < 0 then ⌈x⌉ else ⌊x⌋

/-- `f64::round`: round half away from zero. -/
def ratRound (x : ℚ) : ℤ := if x < 0 then -⌊-x + 1 / 2⌋ else ⌊x + 1 / 2⌋

/-- Saturating cast of a mathematical integer to the `i64` range,
as performed by Rust `as i64` on an out-of-range float. -/
def toI64 (z : ℤ) : ℤ := max (-(2 ^ 63)) (min (2 ^ 63 - 1) z)

/-- `(lo..=hi).map(|i| i as f64).product()` from the source
(empty product `1` when `lo > hi`). -/
def intRangeProd (lo hi : ℤ) : ℚ :=
  ((List.range (hi + 1 - lo).toNat).map (fun i => ((lo + Int.ofNat i : ℤ) : ℚ))).prod

/-- Rust `%` on floats (`fmod`): truncated remainder, exact on exact inputs. -/
def fmod (a b : ℚ) : ℚ := a - b * ((ratTrunc (a / b) : ℤ) : ℚ)

/-- `f64::rem_euclid`: `let r = self % rhs; if r < 0 { r + rhs.abs() } else { r }`. -/
def rem_euclid (a b : ℚ) : ℚ :=
  if fmod a b < 0 then fmod a b + |b| else fmod a b

/-- Digit character for bases up to 16, uppercase letters as in Rust `{:X}`. -/
def hexDigitChar (n : ℕ) : Char :=
  if n < 10 then Char.ofNat (48 + n) else Char.ofNat (55 + n)

/-- Big-endian digit list of `n` in the given base (fuel-driven; 64 steps of
fuel cover every `u64` bit pattern in every base ≥ 2). -/
def natDigitsAux (base : ℕ) : ℕ → ℕ → List Char
  | 0, _ => []
  | _ + 1, 0 => []
  | fuel + 1, n => natDigitsAux base fuel (n / base) ++ [hexDigitChar (n % base)]

/-- Rust `format!("{:X}" / "{:o}" / "{:b}", _)` digit string (no prefix). -/
def natToBaseStr (base n : ℕ) : String :=
  if n = 0 then "0" else String.mk (natDigitsAux base 64 n)

/-- Rust `str::trim_matches(c)`: strip every leading and trailing `c`. -/
def trimMatchesChar (s : String) (c : Char) : String :=
  String.mk (((s.toList.dropWhile (· = c)).reverse.dropWhile (· = c)).reverse)

/-- `unicode_to_ascii` from `src/lib.rs`: map Persian and Arabic-Indic digits
to ASCII, the Arabic decimal separator to `.`, the Arabic thousands separator
to `,`, and leave every other character unchanged. -/
def unicode_to_ascii (c : Char) : Char :=
  if c = '۰' then '0' else if c = '۱' then '1' else if c = '۲' then '2'
  else if c = '۳' then '3' else if c = '۴' then '4' else if c = '۵' then '5'
  else if c = '۶' then '6' else if c = '۷' then '7' else if c = '۸' then '8'
  else if c = '۹' then '9'
  else if c = '٠' then '0' else if c = '١' then '1' else if c = '٢' then '2'
  else if c = '٣' then '3' else if c = '٤' then '4' else if c = '٥' then '5'
  else if c = '٦' then '6' else if c = '٧' then '7' else if c = '٨' then '8'
  else if c = '٩' then '9'
  else if c = '٫' then '.' else if c = '٬' then ',' else c

/-- Step 2 of `process_token`: normalize the token and strip commas. -/
def cleanedToken (token : String) : String :=
  String.mk ((token.toList.map unicode_to_ascii).filter (fun c => c ≠ ','))

/-- Rust `str::starts_with(char)`. -/
def strStartsWithChar (s : String) (c : Char) : Bool :=
  match s.toList with
  | [] => false
  | d :: _ => d == c

/-- Rust `str::ends_with(char)`. -/
def strEndsWithChar (s : String) (c : Char) : Bool :=
  match s.toList.getLast? with
  | some d => d == c
  | none => false

/-- Step 1 condition of `process_token`:
`token.starts_with('"') && token.ends_with('"') && token.len() > 1`.
Rust `len()` counts bytes; since the leading character is the one-byte `"`,
byte count > 1 coincides with character count > 1. -/
def is_quoted (token : String) : Bool :=
  strStartsWithChar token '"' && strEndsWithChar token '"' && token.toList.length > 1

/-- ASCII lowercasing of one character.  Rust `to_lowercase` is full
Unicode, but the two agree on every string whose lowercase form can equal a
registry key (all keys are ASCII). -/
def charToLower (c : Char) : Char :=
  if c.toNat ≥ 65 ∧ c.toNat ≤ 90 then Char.ofNat (c.toNat + 32) else c

/-- Rust `str::to_lowercase` (ASCII fragment, see `charToLower`). -/
def strToLower (s : String) : String :=
  String.mk (s.toList.map charToLower)

/-- One slot of the evaluation stack (`StackItem` in `src/lib.rs`). -/
inductive StackItem where
  | Number (v : ℚ)
  | Key (s : String)
deriving DecidableEq, Repr

/-- The transcendental / constant float operations the registry refers to.
They are abstract parameters of the model (no exact rational definition
exists); nothing the claims state depends on their values. -/
structure FloatOps where
  sqrt : ℚ → ℚ
  sin : ℚ → ℚ
  cos : ℚ → ℚ
  tan : ℚ → ℚ
  acos : ℚ → ℚ
  asin : ℚ → ℚ
  atan : ℚ → ℚ
  exp : ℚ → ℚ
  powf : ℚ → ℚ → ℚ
  logf : ℚ → ℚ → ℚ
  atan2f : ℚ → ℚ → ℚ
  pi : ℚ
  e : ℚ

/-- `OperatorAction` from `src/lib.rs`. -/
inductive OperatorAction where
  | PushConstant (v : ℚ)
  | Unary (f : ℚ → ℚ)
  | Binary (f : ℚ → ℚ → ℚ)
  | Special (name : String)

/-- `binary::power_op`: `a.powf(b)`. -/
def power_op (F : FloatOps) (a b : ℚ) : ℚ := F.powf a b

/-- `binary::log_op`: `a.log(b)`. -/
def log_op (F : FloatOps) (a b : ℚ) : ℚ := F.logf a b

/-- `binary::atan2_op`: `y.atan2(x)`. -/
def atan2_op (F : FloatOps) (y x : ℚ) : ℚ := F.atan2f y x

/-- `binary::percent_change`: `(b - a) / a * 100`. -/
def percent_change (a b : ℚ) : ℚ := (b - a) / a * 100

/-- `unary::rad_to_deg`. -/
def rad_to_deg (F : FloatOps) (rad : ℚ) : ℚ := rad * 180 / F.pi

/-- `unary::deg_to_rad`. -/
def deg_to_rad (F : FloatOps) (deg : ℚ) : ℚ := deg * F.pi / 180

/-- `OPERATOR_DATA` from `src/lib.rs`: token ↦ (help group, usage, action).
The `phf_map!` is an exact-match string table, modelled as an association
list searched by exact key. -/
def OPERATOR_DATA (F : FloatOps) :
    List (String × String × String × OperatorAction) :=
  [("+", "Binary", "a b + | Addition (a + b)", .Binary (fun a b => a + b)),
   ("-", "Binary", "a b - | Subtraction (a - b)", .Binary (fun a b => a - b)),
   ("*", "Binary", "a b * | Multiplication (a * b)", .Binary (fun a b => a * b)),
   ("/", "Binary", "a b / | Division (a / b)", .Binary (fun a b => a / b)),
   ("**", "Binary", "a b ** | Power (a^b)", .Binary (power_op F)),
   ("%", "Binary", "a b % | Euclidean Remainder (a mod b)", .Binary rem_euclid),
   ("%%", "Binary", "a b %% | Percent Change ((b - a) / a * 100)", .Binary percent_change),
   ("log", "Binary", "a b log | Logarithm (log_b(a))", .Binary (log_op F)),
   ("atan2", "Binary", "y x atan2 | Arc tangent of y/x (result in radians)", .Binary (atan2_op F)),
   ("pi", "Constant", "pi | Push the value of pi", .PushConstant F.pi),
   ("e", "Constant", "e | Push the value of Euler's number (e)", .PushConstant F.e),
   ("sqrt", "Unary", "a sqrt | Square root", .Unary F.sqrt),
   ("sin", "Unary", "a sin | Sine (a in radians)", .Unary F.sin),
   ("cos", "Unary", "a cos | Cosine (a in radians)", .Unary F.cos),
   ("tan", "Unary", "a tan | Tangent (a in radians)", .Unary F.tan),
   ("acos", "Unary", "a acos | Arc cosine (result in radians)", .Unary F.acos),
   ("asin", "Unary", "a asin | Arc sine (result in radians)", .Unary F.asin),
   ("atan", "Unary", "a atan | Arc tangent (result in radians)", .Unary F.atan),
   ("exp", "Unary", "a exp | e raised to the power of a (e^a)", .Unary F.exp),
   ("ceil", "Rounding", "a ceil | Ceiling (rounds up)", .Unary (fun a => (⌈a⌉ : ℚ))),
   ("floor", "Rounding", "a floor | Floor (rounds down)", .Unary (fun a => (⌊a⌋ : ℚ))),
   ("deg", "Conversions", "a deg | Convert angle from radians to degrees", .Unary (rad_to_deg F)),
   ("rad", "Conversions", "a rad | Convert angle from degrees to radians", .Unary (deg_to_rad F)),
   ("!", "Combinatorics", "n ! | Factorial (n!)", .Special "factorial"),
   ("P", "Combinatorics", "n k P | Permutations P(n, k)", .Special "permutations"),
   ("C", "Combinatorics", "n k C | Combinations C(n, k)", .Special "combinations"),
   ("<>", "Stack", "a b <> | Swap the top two items", .Special "swap"),
   ("c", "Stack", "c | Clear the stack", .Special "clear"),
   ("a", "Stack", "a | Recall last successful answer", .Special "answer"),
   ("sto", "Memory", "value \"key\" sto | Store value to key", .Special "store"),
   ("rcl", "Memory", "\"key\" rcl | Recall value from key", .Special "recall"),
   ("hex", "Display", "a hex | Display a in hexadecimal (i64 cast)", .Special "display_base"),
   ("bin", "Display", "a bin | Display a in binary (i64 cast)", .Special "display_base"),
   ("oct", "Display", "a oct | Display a in octal (i64 cast)", .Special "display_base"),
   ("help", "Meta", "help [func] | List all functions or show usage for [func]", .Special "help")]

/-- The mutable session state threaded through `process_token`
(the stack, the last-answer slot, and the storage map). -/
structure CalcState where
  stack : List StackItem
  last_answer : Option ℚ
  storage : List (String × ℚ)
deriving DecidableEq, Repr

/-- One `println!` side effect of the core. -/
inductive OutputEvent where
  | line (s : String)
  | helpEntry (tok : String)
  | helpAll
deriving DecidableEq, Repr

/-- Result of one `process_token` call: the returned `Result` (`err = none`
for `Ok(())`), the state after the call, and the emitted output. -/
structure StepResult where
  err : Option String
  state : CalcState
  out : List OutputEvent
deriving DecidableEq, Repr

/-- `unary::calculate`: peek the top; if it is a `Number`, replace it in
place, otherwise error without touching the stack. -/
def unaryCalculate (f : ℚ → ℚ) : List StackItem → Option String × List StackItem
  | .Number v :: rest => (none, .Number (f v) :: rest)
  | s => (some "Unary operator requires one number on the stack", s)

/-- `binary::calculate`: pop `b`, then `a` (both `Number`), push `op a b`.
A popped non-`Number` is dropped (the source's wildcard match arm discards
it); only the `a`-pop failure path pushes `b` back. -/
def binaryCalculate (op : ℚ → ℚ → ℚ) :
    List StackItem → Option String × List StackItem
  | .Number b :: s1 =>
    match s1 with
    | .Number a :: s2 => (none, .Number (op a b) :: s2)
    | .Key _ :: s2 =>
      (some "Binary operation requires two numbers on the stack (missing first operand)",
       .Number b :: s2)
    | [] =>
      (some "Binary operation requires two numbers on the stack (missing first operand)",
       [.Number b])
  | .Key _ :: s1 =>
    (some "Binary operation requires two numbers on the stack (missing second operand)", s1)
  | [] =>
    (some "Binary operation requires two numbers on the stack (missing second operand)", [])

/-- `special::factorial`. -/
def factorial : List StackItem → Option String × List StackItem
  | .Number val :: s1 =>
    if val < 0 then
      (some "Factorial '!' requires a non-negative number.", .Number val :: s1)
    else if val > 20 then
      (some "Factorial '!' is too large; max supported value is 20.", .Number val :: s1)
    else
      (none, .Number (intRangeProd 1 (ratRound val)) :: s1)
  | .Key _ :: s1 => (some "Factorial '!' requires one number on the stack", s1)
  | [] => (some "Factorial '!' requires one number on the stack", [])

/-- The validation-and-compute tail of `special::permutations`, entered once
`k` and `n` have both been popped as `Number`s.  `handle_error` pushes
`n_val` then `k_val` (so `k` ends on top). -/
def permutationsChecked (n_val k_val : ℚ) (s2 : List StackItem) :
    Option String × List StackItem :=
  if n_val < 0 ∨ k_val < 0 then
    (some "P(n, k) requires non-negative inputs.", .Number k_val :: .Number n_val :: s2)
  else if toI64 (ratRound k_val) > toI64 (ratRound n_val) then
    (some "P(n, k): n must be greater than or equal to k.",
     .Number k_val :: .Number n_val :: s2)
  else if toI64 (ratRound n_val) > 20 ∨ toI64 (ratRound k_val) > 20 then
    (some "P(n, k): Inputs too large; max n is 20.",
     .Number k_val :: .Number n_val :: s2)
  else
    (none,
     .Number (intRangeProd (toI64 (ratRound n_val) - toI64 (ratRound k_val) + 1)
       (toI64 (ratRound n_val))) :: s2)

/-- `special::permutations`: pop `k` then `n`.  A popped non-`Number` is
dropped by the wildcard arm; when the `n`-pop fails, `handle_error` is
invoked with the literal `0.0` in place of `n`, pushing `Number 0` and then
`k` back. -/
def permutations : List StackItem → Option String × List StackItem
  | .Number k_val :: s1 =>
    (match s1 with
     | .Number n_val :: s2 => permutationsChecked n_val k_val s2
     | .Key _ :: s2 =>
       (some "P(n, k) requires two numbers (n, k) on the stack (missing n)",
        .Number k_val :: .Number 0 :: s2)
     | [] =>
       (some "P(n, k) requires two numbers (n, k) on the stack (missing n)",
        [.Number k_val, .Number 0]))
  | .Key _ :: s1 =>
    (some "P(n, k) requires two numbers (n, k) on the stack (missing k)", s1)
  | [] =>
    (some "P(n, k) requires two numbers (n, k) on the stack (missing k)", [])

/-- The interleaved multiply/divide loop of `special::combinations`. -/
def combFold (n : ℤ) (k_eff : ℕ) : ℚ :=
  (List.range k_eff).foldl
    (fun result i => result * ((n : ℚ) - (i : ℚ)) / ((i : ℚ) + 1)) 1

/-- The validation-and-compute tail of `special::combinations`. -/
def combinationsChecked (n_val k_val : ℚ) (s2 : List StackItem) :
    Option String × List StackItem :=
  if n_val < 0 ∨ k_val < 0 then
    (some "C(n, k) requires non-negative inputs.", .Number k_val :: .Number n_val :: s2)
  else if toI64 (ratRound k_val) > toI64 (ratRound n_val) then
    (some "C(n, k): n must be greater than or equal to k.",
     .Number k_val :: .Number n_val :: s2)
  else if toI64 (ratRound n_val) > 170 then
    (some "C(n, k): n is too large (> 170) for f64 result.",
     .Number k_val :: .Number n_val :: s2)
  else
    (none,
     .Number (combFold (toI64 (ratRound n_val))
       (min (toI64 (ratRound k_val)) (toI64 (ratRound n_val) - toI64 (ratRound k_val))).toNat)
       :: s2)

/-- `special::combinations`: pop `k` then `n`; failure handling identical in
shape to `permutations` (including the `0.0` placeholder for a missing `n`). -/
def combinations : List StackItem → Option String × List StackItem
  | .Number k_val :: s1 =>
    (match s1 with
     | .Number n_val :: s2 => combinationsChecked n_val k_val s2
     | .Key _ :: s2 =>
       (some "C(n, k) requires two numbers (n, k) on the stack (missing n)",
        .Number k_val :: .Number 0 :: s2)
     | [] =>
       (some "C(n, k) requires two numbers (n, k) on the stack (missing n)",
        [.Number k_val, .Number 0]))
  | .Key _ :: s1 =>
    (some "C(n, k) requires two numbers (n, k) on the stack (missing k)", s1)
  | [] =>
    (some "C(n, k) requires two numbers (n, k) on the stack (missing k)", [])

/-- `special::swap`: exchange the two top slots in place (any item kind). -/
def swap : List StackItem → Option String × List StackItem
  | a :: b :: rest => (none, b :: a :: rest)
  | s => (some "Not enough items on the stack to swap", s)

/-- `HashMap::insert`: bind `k` to `v`, replacing any previous binding. -/
def storageInsert (storage : List (String × ℚ)) (k : String) (v : ℚ) :
    List (String × ℚ) :=
  (k, v) :: storage.filter (fun p => p.1 ≠ k)

/-- `special::store`: pop the key (a non-`Key` top is pushed back), then pop
the value (a failure here permanently loses the key — the documented
inconsistency), then insert into storage. -/
def store (stack : List StackItem) (storage : List (String × ℚ)) :
    Option String × List StackItem × List (String × ℚ) :=
  match stack with
  | .Key k :: s1 =>
    (match s1 with
     | .Number v :: s2 => (none, s2, storageInsert storage k v)
     | .Key _ :: s2 => (some "STO requires a number value before the key", s2, storage)
     | [] => (some "STO requires a number value before the key", [], storage))
  | .Number v :: s1 =>
    (some "STO requires a string key (e.g., \"rate\") as the last item",
     .Number v :: s1, storage)
  | [] =>
    (some "STO requires a string key (e.g., \"rate\") as the last item", [], storage)

/-- `special::recall`: pop the key (a non-`Key` top is pushed back); on a
storage hit push the value, on a miss push the key back and fail. -/
def recallOp (stack : List StackItem) (storage : List (String × ℚ)) :
    Option String × List StackItem :=
  match stack with
  | .Key k :: s1 =>
    (match storage.lookup k with
     | some v => (none, .Number v :: s1)
     | none => (some "Storage key not found", .Key k :: s1))
  | .Number v :: s1 =>
    (some "RCL requires a string key (e.g., \"rate\") as the last item",
     .Number v :: s1)
  | [] =>
    (some "RCL requires a string key (e.g., \"rate\") as the last item", [])

/-- `let int_val = a as i64` followed by taking the `u64` two's-complement
bit pattern that Rust's `{:X}`/`{:o}`/`{:b}` print for an `i64`. -/
def i64Bits (a : ℚ) : ℕ := (toI64 (ratTrunc a) % (2 ^ 64 : ℤ)).toNat

/-- `display_base` from `src/lib.rs`: peek the top `Number`, cast to `i64`
(truncating, saturating), and print its two's-complement bit pattern in the
requested base with the matching prefix.  The stack is not an output: the
source never writes to it. -/
def display_base (stack : List StackItem) (token : String) :
    Option String × List OutputEvent :=
  match stack with
  | .Number a :: _ =>
    if token = "hex" then
      (none, [.line ("\n" ++ token ++ " Base: 0x" ++ natToBaseStr 16 (i64Bits a))])
    else if token = "oct" then
      (none, [.line ("\n" ++ token ++ " Base: 0o" ++ natToBaseStr 8 (i64Bits a))])
    else if token = "bin" then
      (none, [.line ("\n" ++ token ++ " Base: 0b" ++ natToBaseStr 2 (i64Bits a))])
    else (some "Invalid base token", [])
  | _ => (some "Base conversion requires one number on the stack", [])

/-- `display_help`: empty argument requests the full listing; otherwise a
registry hit requests that entry's help and a miss errors.  The rendered
listing text is the output collaborator's concern and is modelled as the
event alone. -/
def display_help (F : FloatOps) (token : String) :
    Option String × List OutputEvent :=
  if token = "" then (none, [.helpAll])
  else
    match (OPERATOR_DATA F).lookup token with
    | some _ => (none, [.helpEntry token])
    | none => (some "Function not found. Type 'help' for a full list.", [])

/-- The `Special(name)` match arms inside `process_token` (an `if`-chain,
matching the compilation of the source's string `match`). -/
def dispatchSpecial (F : FloatOps) (name token : String) (s : CalcState) :
    StepResult :=
  if name = "factorial" then
    let r := factorial s.stack
    ⟨r.1, { s with stack := r.2 }, []⟩
  else if name = "permutations" then
    let r := permutations s.stack
    ⟨r.1, { s with stack := r.2 }, []⟩
  else if name = "combinations" then
    let r := combinations s.stack
    ⟨r.1, { s with stack := r.2 }, []⟩
  else if name = "swap" then
    let r := swap s.stack
    ⟨r.1, { s with stack := r.2 }, []⟩
  else if name = "clear" then
    ⟨none, { s with stack := [] }, []⟩
  else if name = "answer" then
    match s.last_answer with
    | some val => ⟨none, { s with stack := .Number val :: s.stack }, []⟩
    | none => ⟨some "No previous answer available ('a' is empty)", s, []⟩
  else if name = "store" then
    let r := store s.stack s.storage
    ⟨r.1, { s with stack := r.2.1, storage := r.2.2 }, []⟩
  else if name = "recall" then
    let r := recallOp s.stack s.storage
    ⟨r.1, { s with stack := r.2 }, []⟩
  else if name = "display_base" then
    let r := display_base s.stack token
    ⟨r.1, s, r.2⟩
  else if name = "help" then
    match s.stack with
    | .Key key :: s1 =>
      let func_name := strToLower (trimMatchesChar key '"')
      if ((OPERATOR_DATA F).lookup func_name).isSome then
        let d := display_help F func_name
        ⟨d.1, { s with stack := s1 }, d.2⟩
      else
        let d := display_help F ""
        ⟨d.1, { s with stack := .Key key :: s1 }, d.2⟩
    | .Number val :: s1 =>
      let d := display_help F ""
      ⟨d.1, { s with stack := .Number val :: s1 }, d.2⟩
    | [] =>
      let d := display_help F ""
      ⟨d.1, s, d.2⟩
  else
    ⟨some "Internal operator error (Special command missing handler)", s, []⟩

/-- Step 3 of `process_token`: registry lookup and action dispatch. -/
def dispatch (F : FloatOps) (token : String) (s : CalcState) : StepResult :=
  match (OPERATOR_DATA F).lookup token with
  | none => ⟨some "Unrecognized token or operator", s, []⟩
  | some (_, _, act) =>
    match act with
    | .PushConstant v => ⟨none, { s with stack := .Number v :: s.stack }, []⟩
    | .Unary f =>
      let r := unaryCalculate f s.stack
      ⟨r.1, { s with stack := r.2 }, []⟩
    | .Binary f =>
      let r := binaryCalculate f s.stack
      ⟨r.1, { s with stack := r.2 }, []⟩
    | .Special name => dispatchSpecial F name token s

/-- `process_token` from `src/lib.rs`: quoted-key check, numeric parse,
then operator dispatch. -/
def process_token (F : FloatOps) (parse : String → Option ℚ)
    (token : String) (s : CalcState) : StepResult :=
  if is_quoted token then
    ⟨none, { s with stack := .Key (trimMatchesChar token '"') :: s.stack }, []⟩
  else
    match parse (cleanedToken token) with
    | some num => ⟨none, { s with stack := .Number num :: s.stack }, []⟩
    | none => dispatch F token s

/-- Degenerate float-operation pack used to instantiate witnesses. -/
def F0 : FloatOps :=
  ⟨fun _ => 0, fun _ => 0, fun _ => 0, fun _ => 0, fun _ => 0, fun _ => 0,
   fun _ => 0, fun _ => 0, fun _ _ => 0, fun _ _ => 0, fun _ _ => 0, 0, 0⟩

/-- Degenerate parser used to instantiate witnesses (parses nothing, as the
real parser does on every registered operator token). -/
def parse0 : String → Option ℚ := fun _ => none

/-! ## General routing lemmas -/

/-- A token that is not quoted and does not parse as a number is handled by
the registry dispatch (steps 1 and 2 of `process_token` fall through). -/
theorem process_token_not_quoted (F : FloatOps) (parse : String → Option ℚ)
    (token : String) (s : CalcState) (hq : is_quoted token = false)
    (hp : parse (cleanedToken token) = none) :
    process_token F parse token s = dispatch F token s := by
  simp [process_token, hq, hp]

/-! ## C4: store/recall round trip -/

/-- First-match lookup after `storageInsert` finds the inserted binding. -/
theorem lookup_storageInsert (σ : List (String × ℚ)) (k : String) (v : ℚ) :
    (storageInsert σ k v).lookup k = some v := by
  simp [storageInsert, List.lookup]

/-- C4: for every value `v`, key `k`, stack, last answer and storage,
pushing `Number v` then `Key k` and running `sto` succeeds, consumes both
items and stores `(k, v)`; then pushing `Key k` and running `rcl` succeeds
and leaves `Number v` on top, with storage still mapping `k` to `v`. -/
theorem sto_rcl_round_trip (F : FloatOps) (parse : String → Option ℚ)
    (v : ℚ) (k : String) (st : List StackItem) (la : Option ℚ)
    (σ : List (String × ℚ))
    (hsto : parse (cleanedToken "sto") = none)
    (hrcl : parse (cleanedToken "rcl") = none) :
    (process_token F parse "sto" ⟨.Key k :: .Number v :: st, la, σ⟩).err = none ∧
    (process_token F parse "sto" ⟨.Key k :: .Number v :: st, la, σ⟩).state.stack = st ∧
    (process_token F parse "sto" ⟨.Key k :: .Number v :: st, la, σ⟩).state.storage
      = storageInsert σ k v ∧
    (process_token F parse "rcl" ⟨.Key k :: st, la, storageInsert σ k v⟩).err = none ∧
    (process_token F parse "rcl" ⟨.Key k :: st, la, storageInsert σ k v⟩).state.stack
      = .Number v :: st ∧
    (process_token F parse "rcl" ⟨.Key k :: st, la, storageInsert σ k v⟩).state.storage.lookup k
      = some v := by
  have h1 : process_token F parse "sto" ⟨.Key k :: .Number v :: st, la, σ⟩
      = ⟨none, ⟨st, la, storageInsert σ k v⟩, []⟩ := by
    rw [process_token_not_quoted F parse "sto" _ rfl hsto]; rfl
  have hd2 : dispatch F "rcl" ⟨.Key k :: st, la, storageInsert σ k v⟩
      = ⟨(recallOp (.Key k :: st) (storageInsert σ k v)).1,
         ⟨(recallOp (.Key k :: st) (storageInsert σ k v)).2, la, storageInsert σ k v⟩, []⟩ := rfl
  have hr : recallOp (.Key k :: st) (storageInsert σ k v) = (none, .Number v :: st) := by
    simp [recallOp, lookup_storageInsert]
  have h2 : process_token F parse "rcl" ⟨.Key k :: st, la, storageInsert σ k v⟩
      = ⟨none, ⟨.Number v :: st, la, storageInsert σ k v⟩, []⟩ := by
    rw [process_token_not_quoted F parse "rcl" _ rfl hrcl, hd2, hr]
  rw [h1, h2]
  exact ⟨rfl, rfl, rfl, rfl, rfl, lookup_storageInsert σ k v⟩

/-- Witness for `sto_rcl_round_trip` at `v = 100`, `k = "rate"`, empty
stack and storage. -/
theorem sto_rcl_round_trip_witness :
    (process_token F0 parse0 "sto" ⟨[.Key "rate", .Number 100], none, []⟩).err = none ∧
    (process_token F0 parse0 "sto" ⟨[.Key "rate", .Number 100], none, []⟩).state.stack = [] ∧
    (process_token F0 parse0 "sto" ⟨[.Key "rate", .Number 100], none, []⟩).state.storage
      = storageInsert [] "rate" 100 ∧
    (process_token F0 parse0 "rcl" ⟨[.Key "rate"], none, storageInsert [] "rate" 100⟩).err
      = none ∧
    (process_token F0 parse0 "rcl" ⟨[.Key "rate"], none, storageInsert [] "rate" 100⟩).state.stack
      = [.Number 100] ∧
    (process_token F0 parse0 "rcl"
        ⟨[.Key "rate"], none, storageInsert [] "rate" 100⟩).state.storage.lookup "rate"
      = some 100 :=
  sto_rcl_round_trip F0 parse0 100 "rate" [] none [] rfl rfl

/-! ## C1: binary operators on a short stack -/

/-- The nine binary operator tokens of the registry. -/
def binaryTokens : List String := ["+", "-", "*", "/", "**", "%", "%%", "log", "atan2"]

/-- C1 (amended): a binary operator on a stack of length < 2 always fails;
the empty stack and the single-`Number` stack are restored exactly, but a
single `Key` is dropped (the failing `b`-pop discards it), leaving the
stack empty. -/
theorem binary_short_stack_amended (F : FloatOps) (parse : String → Option ℚ)
    (tok : String) (hmem : tok ∈ binaryTokens)
    (hp : parse (cleanedToken tok) = none) :
    (∀ (la : Option ℚ) (σ : List (String × ℚ)),
      (process_token F parse tok ⟨[], la, σ⟩).err.isSome = true ∧
      (process_token F parse tok ⟨[], la, σ⟩).state = ⟨[], la, σ⟩) ∧
    (∀ (a : ℚ) (la : Option ℚ) (σ : List (String × ℚ)),
      (process_token F parse tok ⟨[.Number a], la, σ⟩).err.isSome = true ∧
      (process_token F parse tok ⟨[.Number a], la, σ⟩).state = ⟨[.Number a], la, σ⟩) ∧
    (∀ (k : String) (la : Option ℚ) (σ : List (String × ℚ)),
      (process_token F parse tok ⟨[.Key k], la, σ⟩).err.isSome = true ∧
      (process_token F parse tok ⟨[.Key k], la, σ⟩).state = ⟨[], la, σ⟩) := by
  fin_cases hmem <;>
    exact ⟨fun la σ => by rw [process_token_not_quoted F parse _ _ (by decide) hp]; exact ⟨rfl, rfl⟩,
      fun a la σ => by rw [process_token_not_quoted F parse _ _ (by decide) hp]; exact ⟨rfl, rfl⟩,
      fun k la σ => by rw [process_token_not_quoted F parse _ _ (by decide) hp]; exact ⟨rfl, rfl⟩⟩

/-- C1 counterexample: on the stack `[Key "x"]` (length 1) the token `+`
fails, yet the stack afterwards is empty — the `Key` was not restored, so
the claimed restore invariant is false for a `Key` operand. -/
theorem binary_short_stack_cex :
    ¬ ((process_token F0 parse0 "+" ⟨[.Key "x"], none, []⟩).err.isSome = true →
       (process_token F0 parse0 "+" ⟨[.Key "x"], none, []⟩).state.stack = [.Key "x"]) := by
  intro h
  have h2 := h rfl
  rw [show (process_token F0 parse0 "+" ⟨[.Key "x"], none, []⟩).state.stack = [] from rfl] at h2
  simp at h2

/-- Witness for `binary_short_stack_amended` at token `+`. -/
theorem binary_short_stack_amended_witness :
    ("+" ∈ binaryTokens) ∧
    ((process_token F0 parse0 "+" ⟨[], none, []⟩).err.isSome = true ∧
     (process_token F0 parse0 "+" ⟨[], none, []⟩).state = ⟨[], none, []⟩) :=
  ⟨by decide, (binary_short_stack_amended F0 parse0 "+" (by decide) rfl).1 none []⟩

/-! ## C7: unary operator contract -/

/-- The twelve unary operator tokens of the registry. -/
def unaryTokens : List String :=
  ["sqrt", "sin", "cos", "tan", "acos", "asin", "atan", "exp", "ceil", "floor", "deg", "rad"]

/-- C7: every unary operator token has a registered handler `f`; on a stack
whose top is `Number v` the call succeeds and replaces the top in place by
`Number (f v)` with all deeper items (and the rest of the state) unchanged;
on the empty stack, or with a `Key` on top, it fails and leaves the whole
state untouched. -/
theorem unary_contract (F : FloatOps) (parse : String → Option ℚ)
    (tok : String) (hmem : tok ∈ unaryTokens)
    (hp : parse (cleanedToken tok) = none) :
    ∃ g u f, (OPERATOR_DATA F).lookup tok = some (g, u, .Unary f) ∧
      ((∀ (v : ℚ) (rest : List StackItem) (la : Option ℚ) (σ : List (String × ℚ)),
        (process_token F parse tok ⟨.Number v :: rest, la, σ⟩).err = none ∧
        (process_token F parse tok ⟨.Number v :: rest, la, σ⟩).state
          = ⟨.Number (f v) :: rest, la, σ⟩) ∧
       (∀ (la : Option ℚ) (σ : List (String × ℚ)),
        (process_token F parse tok ⟨[], la, σ⟩).err.isSome = true ∧
        (process_token F parse tok ⟨[], la, σ⟩).state = ⟨[], la, σ⟩) ∧
       (∀ (k : String) (rest : List StackItem) (la : Option ℚ) (σ : List (String × ℚ)),
        (process_token F parse tok ⟨.Key k :: rest, la, σ⟩).err.isSome = true ∧
        (process_token F parse tok ⟨.Key k :: rest, la, σ⟩).state = ⟨.Key k :: rest, la, σ⟩)) := by
  fin_cases hmem <;>
    exact ⟨_, _, _, rfl,
      fun v rest la σ => by rw [process_token_not_quoted F parse _ _ (by decide) hp]; exact ⟨rfl, rfl⟩,
      fun la σ => by rw [process_token_not_quoted F parse _ _ (by decide) hp]; exact ⟨rfl, rfl⟩,
      fun k rest la σ => by rw [process_token_not_quoted F parse _ _ (by decide) hp]; exact ⟨rfl, rfl⟩⟩

/-- Witness for `unary_contract` at token `sqrt`. -/
theorem unary_contract_witness :
    ("sqrt" ∈ unaryTokens) ∧
    (process_token F0 parse0 "sqrt" ⟨[.Number 9], none, []⟩).err = none ∧
    (process_token F0 parse0 "sqrt" ⟨[.Number 9], none, []⟩).state
      = ⟨[.Number (F0.sqrt 9)], none, []⟩ := by
  obtain ⟨g, u, f, hf, hnum, -, -⟩ := unary_contract F0 parse0 "sqrt" (by decide) rfl
  rw [show (OPERATOR_DATA F0).lookup "sqrt"
      = some ("Unary", "a sqrt | Square root", .Unary F0.sqrt) from rfl] at hf
  simp only [Option.some.injEq, Prod.mk.injEq, OperatorAction.Unary.injEq] at hf
  obtain ⟨-, -, rfl⟩ := hf
  exact ⟨by decide, (hnum 9 [] none []).1, (hnum 9 [] none []).2⟩

/-! ## C5: factorial contract -/

/-- The product `1 · 2 · … · m` computed by `intRangeProd` equals `m!`. -/
theorem intRangeProd_one_natCast (m : ℕ) :
    intRangeProd 1 (m : ℤ) = (Nat.factorial m : ℚ) := by
  induction m with
  | zero => simp [intRangeProd]
  | succ n ih =>
    rw [intRangeProd] at ih ⊢
    rw [show (((n : ℕ) + 1 : ℕ) : ℤ) + 1 - 1 = ((n + 1 : ℕ) : ℤ) from by push_cast; ring,
      Int.toNat_natCast]
    rw [show ((n : ℤ) + 1 - 1).toNat = n from by omega] at ih
    rw [List.range_succ, List.map_append, List.prod_append, ih]
    simp [Nat.factorial_succ]
    ring

/-- `intRangeProd 1 z` is the factorial of `z` for nonnegative `z`. -/
theorem intRangeProd_one_eq_factorial (z : ℤ) (hz : 0 ≤ z) :
    intRangeProd 1 z = (Nat.factorial z.toNat : ℚ) := by
  rw [← Int.toNat_of_nonneg hz]
  rw [intRangeProd_one_natCast z.toNat, Int.toNat_natCast]

/-- Rounding a nonnegative rational gives a nonnegative integer. -/
theorem ratRound_nonneg (x : ℚ) (hx : 0 ≤ x) : 0 ≤ ratRound x := by
  rw [ratRound, if_neg (not_lt.mpr hx)]
  exact Int.le_floor.mpr (by push_cast; linarith)

/-- C5: `!` pops one `Number n`; for `n < 0` or `n > 20` it fails with `n`
pushed back (state unchanged); for `0 ≤ n ≤ 20` it succeeds and pushes
`(round n)!` (so `round 0` gives the empty product `1`), a net stack-length
change of `0`. -/
theorem factorial_contract (F : FloatOps) (parse : String → Option ℚ)
    (hp : parse (cleanedToken "!") = none)
    (n : ℚ) (rest : List StackItem) (la : Option ℚ) (σ : List (String × ℚ)) :
    (n < 0 →
      (process_token F parse "!" ⟨.Number n :: rest, la, σ⟩).err.isSome = true ∧
      (process_token F parse "!" ⟨.Number n :: rest, la, σ⟩).state
        = ⟨.Number n :: rest, la, σ⟩) ∧
    (n > 20 →
      (process_token F parse "!" ⟨.Number n :: rest, la, σ⟩).err.isSome = true ∧
      (process_token F parse "!" ⟨.Number n :: rest, la, σ⟩).state
        = ⟨.Number n :: rest, la, σ⟩) ∧
    (0 ≤ n → n ≤ 20 →
      (process_token F parse "!" ⟨.Number n :: rest, la, σ⟩).err = none ∧
      (process_token F parse "!" ⟨.Number n :: rest, la, σ⟩).state
        = ⟨.Number ((Nat.factorial (ratRound n).toNat : ℕ) : ℚ) :: rest, la, σ⟩) := by
  rw [process_token_not_quoted F parse _ _ (by decide) hp]
  refine ⟨fun hneg => ?_, fun hbig => ?_, fun h0 h20 => ?_⟩
  · have hf : factorial (.Number n :: rest)
        = (some "Factorial '!' requires a non-negative number.", .Number n :: rest) := by
      simp [factorial, hneg]
    exact ⟨by show (factorial (.Number n :: rest)).1.isSome = true; rw [hf]; rfl,
           by show CalcState.mk (factorial (.Number n :: rest)).2 la σ = _; rw [hf]⟩
  · have hf : factorial (.Number n :: rest)
        = (some "Factorial '!' is too large; max supported value is 20.",
           .Number n :: rest) := by
      simp [factorial, hbig, show ¬ n < 0 by linarith]
    exact ⟨by show (factorial (.Number n :: rest)).1.isSome = true; rw [hf]; rfl,
           by show CalcState.mk (factorial (.Number n :: rest)).2 la σ = _; rw [hf]⟩
  · have hf : factorial (.Number n :: rest)
        = (none, .Number (intRangeProd 1 (ratRound n)) :: rest) := by
      simp [factorial, not_lt.mpr h0, not_lt.mpr h20]
    constructor
    · show (factorial (.Number n :: rest)).1 = none
      rw [hf]
    · show CalcState.mk (factorial (.Number n :: rest)).2 la σ = _
      rw [hf, intRangeProd_one_eq_factorial _ (ratRound_nonneg n h0)]

/-- Witness for `factorial_contract`: `5 !` yields `120`. -/
theorem factorial_contract_witness :
    ((0 : ℚ) ≤ 5) ∧ ((5 : ℚ) ≤ 20) ∧
    (process_token F0 parse0 "!" ⟨[.Number 5], none, []⟩).err = none ∧
    (process_token F0 parse0 "!" ⟨[.Number 5], none, []⟩).state
      = ⟨[.Number 120], none, []⟩ := by
  have h := (factorial_contract F0 parse0 rfl 5 [] none []).2.2 (by norm_num) (by norm_num)
  refine ⟨by norm_num, by norm_num, h.1, ?_⟩
  rw [h.2]
  have h5 : ratRound (5 : ℚ) = 5 := by
    rw [ratRound, if_neg (by norm_num)]
    rw [show (5 : ℚ) + 1 / 2 = 11 / 2 from by norm_num, Int.floor_eq_iff]
    norm_num
  rw [h5]
  norm_num [Nat.factorial]

/-! ## C6: Euclidean remainder -/

/-- The truncation of `x` is below `x + 1`. -/
theorem ratTrunc_lt_add_one (x : ℚ) : (ratTrunc x : ℚ) < x + 1 := by
  rw [ratTrunc]
  split_ifs
  · exact Int.ceil_lt_add_one x
  · calc ((⌊x⌋ : ℤ) : ℚ) ≤ x := Int.floor_le x
      _ < x + 1 := lt_add_one x

/-- For a positive divisor, `rem_euclid` is never negative. -/
theorem rem_euclid_nonneg (a b : ℚ) (hb : 0 < b) : 0 ≤ rem_euclid a b := by
  rw [rem_euclid]
  split_ifs with h
  · have ht : (ratTrunc (a / b) : ℚ) < a / b + 1 := ratTrunc_lt_add_one _
    have hmul : b * (ratTrunc (a / b) : ℚ) < b * (a / b + 1) :=
      mul_lt_mul_of_pos_left ht hb
    have hab : b * (a / b + 1) = a + b := by
      rw [mul_add, mul_div_cancel₀ a (ne_of_gt hb), mul_one]
    rw [abs_of_pos hb, fmod]
    rw [hab] at hmul
    linarith
  · exact not_lt.mp h

/-- `-10 rem_euclid 3 = 2` exactly. -/
theorem rem_euclid_neg_ten_three : rem_euclid (-10) 3 = 2 := by
  have h1 : ratTrunc ((-10 : ℚ) / 3) = -3 := by
    rw [ratTrunc, if_pos (by norm_num), Int.ceil_eq_iff]
    norm_num
  rw [rem_euclid, fmod, h1, if_pos (by norm_num), abs_of_pos (by norm_num : (0:ℚ) < 3)]
  norm_num

/-- C6: the `%` token pops `b` (top) and `a`, pushes `rem_euclid a b`
(the mathematical Euclidean remainder); on the stack `[-10, 3]` it yields
exactly `2`; and for every `a` and positive `b` the result is nonnegative. -/
theorem mod_euclidean (F : FloatOps) (parse : String → Option ℚ)
    (hp : parse (cleanedToken "%") = none) :
    (∀ (a b : ℚ) (rest : List StackItem) (la : Option ℚ) (σ : List (String × ℚ)),
      (process_token F parse "%" ⟨.Number b :: .Number a :: rest, la, σ⟩).err = none ∧
      (process_token F parse "%" ⟨.Number b :: .Number a :: rest, la, σ⟩).state
        = ⟨.Number (rem_euclid a b) :: rest, la, σ⟩) ∧
    (∀ (la : Option ℚ) (σ : List (String × ℚ)),
      (process_token F parse "%" ⟨[.Number 3, .Number (-10)], la, σ⟩).state.stack
        = [.Number 2]) ∧
    (∀ a b : ℚ, 0 < b → 0 ≤ rem_euclid a b) := by
  refine ⟨fun a b rest la σ => ?_, fun la σ => ?_, rem_euclid_nonneg⟩
  · rw [process_token_not_quoted F parse _ _ (by decide) hp]
    exact ⟨rfl, rfl⟩
  · rw [process_token_not_quoted F parse _ _ (by decide) hp]
    show [StackItem.Number (rem_euclid (-10) 3)] = [StackItem.Number 2]
    rw [rem_euclid_neg_ten_three]

/-- Witness for `mod_euclidean`: the literal `-10 3 %` scenario. -/
theorem mod_euclidean_witness :
    (process_token F0 parse0 "%" ⟨[.Number 3, .Number (-10)], none, []⟩).state.stack
      = [.Number 2] :=
  (mod_euclidean F0 parse0 rfl).2.1 none []

/-! ## C3: help -/

/-- C3 (amended): the help handler never fails.  With a `Key` on top whose
quote-trimmed, lowercased text is *exactly* a registry token, the key is
consumed and that entry's help is requested; with any other `Key`, a
`Number`, or an empty stack, the state is unchanged and the full listing is
requested.  (This is lowercase-then-exact-match, not a symmetric
case-insensitive comparison: the uppercase registry tokens `P` and `C` can
never be matched this way.) -/
theorem help_contract (F : FloatOps) (parse : String → Option ℚ)
    (hp : parse (cleanedToken "help") = none) :
    (∀ (key : String) (rest : List StackItem) (la : Option ℚ) (σ : List (String × ℚ)),
      (((OPERATOR_DATA F).lookup (strToLower (trimMatchesChar key '"'))).isSome = true →
        (process_token F parse "help" ⟨.Key key :: rest, la, σ⟩).err = none ∧
        (process_token F parse "help" ⟨.Key key :: rest, la, σ⟩).state = ⟨rest, la, σ⟩ ∧
        (process_token F parse "help" ⟨.Key key :: rest, la, σ⟩).out
          = [.helpEntry (strToLower (trimMatchesChar key '"'))]) ∧
      (((OPERATOR_DATA F).lookup (strToLower (trimMatchesChar key '"'))).isSome = false →
        (process_token F parse "help" ⟨.Key key :: rest, la, σ⟩).err = none ∧
        (process_token F parse "help" ⟨.Key key :: rest, la, σ⟩).state
          = ⟨.Key key :: rest, la, σ⟩ ∧
        (process_token F parse "help" ⟨.Key key :: rest, la, σ⟩).out = [.helpAll])) ∧
    (∀ (v : ℚ) (rest : List StackItem) (la : Option ℚ) (σ : List (String × ℚ)),
      (process_token F parse "help" ⟨.Number v :: rest, la, σ⟩).err = none ∧
      (process_token F parse "help" ⟨.Number v :: rest, la, σ⟩).state
        = ⟨.Number v :: rest, la, σ⟩ ∧
      (process_token F parse "help" ⟨.Number v :: rest, la, σ⟩).out = [.helpAll]) ∧
    (∀ (la : Option ℚ) (σ : List (String × ℚ)),
      (process_token F parse "help" ⟨[], la, σ⟩).err = none ∧
      (process_token F parse "help" ⟨[], la, σ⟩).state = ⟨[], la, σ⟩ ∧
      (process_token F parse "help" ⟨[], la, σ⟩).out = [.helpAll]) := by
  refine ⟨fun key rest la σ => ?_, fun v rest la σ => ?_, fun la σ => ?_⟩
  · rw [process_token_not_quoted F parse _ _ (by decide) hp]
    have hd : dispatch F "help" ⟨.Key key :: rest, la, σ⟩
        = (if ((OPERATOR_DATA F).lookup (strToLower (trimMatchesChar key '"'))).isSome then
            ⟨(display_help F (strToLower (trimMatchesChar key '"'))).1, ⟨rest, la, σ⟩,
             (display_help F (strToLower (trimMatchesChar key '"'))).2⟩
          else
            ⟨(display_help F "").1, ⟨.Key key :: rest, la, σ⟩, (display_help F "").2⟩) := rfl
    constructor
    · intro h
      rw [hd, if_pos h]
      have hne : strToLower (trimMatchesChar key '"') ≠ "" := by
        intro he
        rw [he, show ((OPERATOR_DATA F).lookup "").isSome = false from rfl] at h
        exact Bool.false_ne_true h
      obtain ⟨entry, hent⟩ := Option.isSome_iff_exists.mp h
      rw [show display_help F (strToLower (trimMatchesChar key '"'))
          = (none, [.helpEntry (strToLower (trimMatchesChar key '"'))]) from by
        rw [display_help, if_neg hne, hent]]
      exact ⟨rfl, rfl, rfl⟩
    · intro h
      rw [hd, if_neg (by rw [h]; exact Bool.false_ne_true)]
      exact ⟨rfl, rfl, rfl⟩
  · rw [process_token_not_quoted F parse _ _ (by decide) hp]
    exact ⟨rfl, rfl, rfl⟩
  · rw [process_token_not_quoted F parse _ _ (by decide) hp]
    exact ⟨rfl, rfl, rfl⟩

/-- C3 counterexample: the key `"P"` equals the registered token `P` under
case-insensitive comparison, yet `help` does not consume it (the stack is
unchanged) and requests the full listing, because the code lowercases the
key first and `p` is not a registry key. -/
theorem help_contract_cex :
    ((OPERATOR_DATA F0).lookup "P").isSome = true ∧
    (process_token F0 parse0 "help" ⟨[.Key "P"], none, []⟩).err = none ∧
    (process_token F0 parse0 "help" ⟨[.Key "P"], none, []⟩).state = ⟨[.Key "P"], none, []⟩ ∧
    (process_token F0 parse0 "help" ⟨[.Key "P"], none, []⟩).out = [.helpAll] :=
  ⟨rfl, rfl, rfl, rfl⟩

/-- Witness for `help_contract`: `"SIN" help` consumes the key and requests
the `sin` entry. -/
theorem help_contract_witness :
    (process_token F0 parse0 "help" ⟨[.Key "SIN"], none, []⟩).err = none ∧
    (process_token F0 parse0 "help" ⟨[.Key "SIN"], none, []⟩).state = ⟨[], none, []⟩ ∧
    (process_token F0 parse0 "help" ⟨[.Key "SIN"], none, []⟩).out
      = [.helpEntry (strToLower (trimMatchesChar "SIN" '"'))] :=
  ((help_contract F0 parse0 rfl).1 "SIN" [] none []).1 rfl

/-! ## C2: permutations / combinations error recovery -/

/-- Every failing branch of the P validation tail restores `n` and `k`. -/
theorem permutationsChecked_restore (n k : ℚ) (s2 : List StackItem)
    (h : (permutationsChecked n k s2).1.isSome = true) :
    (permutationsChecked n k s2).2 = .Number k :: .Number n :: s2 := by
  rw [permutationsChecked] at h ⊢
  split_ifs at h ⊢ <;> simp_all

/-- Every failing branch of the C validation tail restores `n` and `k`. -/
theorem combinationsChecked_restore (n k : ℚ) (s2 : List StackItem)
    (h : (combinationsChecked n k s2).1.isSome = true) :
    (combinationsChecked n k s2).2 = .Number k :: .Number n :: s2 := by
  rw [combinationsChecked] at h ⊢
  split_ifs at h ⊢ <;> simp_all

/-- C2 (amended): for `P` and `C`, a failing call restores the stack exactly
whenever both popped operands were `Number`s (negative input, `k > n`, or a
size bound).  When an operand is missing or not a `Number` the stack is NOT
restored: a popped `Key` is dropped, and a missing (or non-`Number`) `n` is
replaced by a pushed placeholder `Number 0` below the restored `k`. -/
theorem perm_comb_recovery_amended (F : FloatOps) (parse : String → Option ℚ)
    (tok : String) (hmem : tok ∈ ["P", "C"])
    (hp : parse (cleanedToken tok) = none) :
    (∀ (k n : ℚ) (rest : List StackItem) (la : Option ℚ) (σ : List (String × ℚ)),
      (process_token F parse tok ⟨.Number k :: .Number n :: rest, la, σ⟩).err.isSome = true →
      (process_token F parse tok ⟨.Number k :: .Number n :: rest, la, σ⟩).state
        = ⟨.Number k :: .Number n :: rest, la, σ⟩) ∧
    (∀ (la : Option ℚ) (σ : List (String × ℚ)),
      (process_token F parse tok ⟨[], la, σ⟩).err.isSome = true ∧
      (process_token F parse tok ⟨[], la, σ⟩).state = ⟨[], la, σ⟩) ∧
    (∀ (s : String) (rest : List StackItem) (la : Option ℚ) (σ : List (String × ℚ)),
      (process_token F parse tok ⟨.Key s :: rest, la, σ⟩).err.isSome = true ∧
      (process_token F parse tok ⟨.Key s :: rest, la, σ⟩).state = ⟨rest, la, σ⟩) ∧
    (∀ (k : ℚ) (la : Option ℚ) (σ : List (String × ℚ)),
      (process_token F parse tok ⟨[.Number k], la, σ⟩).err.isSome = true ∧
      (process_token F parse tok ⟨[.Number k], la, σ⟩).state
        = ⟨[.Number k, .Number 0], la, σ⟩) ∧
    (∀ (k : ℚ) (s : String) (rest : List StackItem) (la : Option ℚ)
        (σ : List (String × ℚ)),
      (process_token F parse tok ⟨.Number k :: .Key s :: rest, la, σ⟩).err.isSome = true ∧
      (process_token F parse tok ⟨.Number k :: .Key s :: rest, la, σ⟩).state
        = ⟨.Number k :: .Number 0 :: rest, la, σ⟩) := by
  fin_cases hmem
  · refine ⟨fun k n rest la σ => ?_, fun la σ => ?_, fun s rest la σ => ?_,
      fun k la σ => ?_, fun k s rest la σ => ?_⟩ <;>
      rw [process_token_not_quoted F parse _ _ (by decide) hp]
    · intro h
      show CalcState.mk (permutationsChecked n k rest).2 la σ = _
      rw [permutationsChecked_restore n k rest h]
    · exact ⟨rfl, rfl⟩
    · exact ⟨rfl, rfl⟩
    · exact ⟨rfl, rfl⟩
    · exact ⟨rfl, rfl⟩
  · refine ⟨fun k n rest la σ => ?_, fun la σ => ?_, fun s rest la σ => ?_,
      fun k la σ => ?_, fun k s rest la σ => ?_⟩ <;>
      rw [process_token_not_quoted F parse _ _ (by decide) hp]
    · intro h
      show CalcState.mk (combinationsChecked n k rest).2 la σ = _
      rw [combinationsChecked_restore n k rest h]
    · exact ⟨rfl, rfl⟩
    · exact ⟨rfl, rfl⟩
    · exact ⟨rfl, rfl⟩
    · exact ⟨rfl, rfl⟩

/-- C2 counterexample: on the stack `[Number 5]` the token `P` fails (the
`n` operand is missing), but the stack afterwards is `[5, 0]` — the
`handle_error` helper pushed the literal `0.0` in place of the operand that
was never there, so the stack is not restored to its pre-call contents. -/
theorem perm_comb_recovery_cex :
    ¬ ((process_token F0 parse0 "P" ⟨[.Number 5], none, []⟩).err.isSome = true →
       (process_token F0 parse0 "P" ⟨[.Number 5], none, []⟩).state.stack = [.Number 5]) := by
  intro h
  have h2 := h rfl
  rw [show (process_token F0 parse0 "P" ⟨[.Number 5], none, []⟩).state.stack
      = [.Number 5, .Number 0] from rfl] at h2
  simp at h2

/-- Witness for `perm_comb_recovery_amended`: `3 5 P` (that is, `n = 3`,
`k = 5` with `k` on top) fails with `k > n` and the stack is restored. -/
theorem perm_comb_recovery_amended_witness :
    ("P" ∈ ["P", "C"]) ∧
    (process_token F0 parse0 "P" ⟨[.Number 5, .Number 3], none, []⟩).err.isSome = true ∧
    (process_token F0 parse0 "P" ⟨[.Number 5, .Number 3], none, []⟩).state
      = ⟨[.Number 5, .Number 3], none, []⟩ := by
  have h5 : ratRound (5 : ℚ) = 5 := by
    rw [ratRound, if_neg (by norm_num),
      show (5 : ℚ) + 1 / 2 = 11 / 2 from by norm_num, Int.floor_eq_iff]
    norm_num
  have h3 : ratRound (3 : ℚ) = 3 := by
    rw [ratRound, if_neg (by norm_num),
      show (3 : ℚ) + 1 / 2 = 7 / 2 from by norm_num, Int.floor_eq_iff]
    norm_num
  have hpc : (permutationsChecked 3 5 []).1.isSome = true := by
    rw [permutationsChecked, if_neg (by norm_num), if_pos]
    · rfl
    · rw [h5, h3]
      decide
  have herr : (process_token F0 parse0 "P" ⟨[.Number 5, .Number 3], none, []⟩).err.isSome
      = true := by
    rw [process_token_not_quoted F0 parse0 _ _ (by decide) rfl]
    exact hpc
  refine ⟨by decide, herr, ?_⟩
  exact (perm_comb_recovery_amended F0 parse0 "P" (by decide) rfl).1 5 3 [] none [] herr

/-! ## C8: display-base tokens -/

/-- C8: `hex`, `bin` and `oct` never change the state (the stack is only
peeked); they fail exactly when the stack is empty or its top is a `Key`
(with no output); on a `Number` top they succeed and emit the value
truncated toward zero to an `i64`, printed in the requested base with the
`0x`/`0o`/`0b` prefix. -/
theorem display_base_contract (F : FloatOps) (parse : String → Option ℚ)
    (tok : String) (hmem : tok ∈ ["hex", "bin", "oct"])
    (hp : parse (cleanedToken tok) = none) :
    (∀ (la : Option ℚ) (σ : List (String × ℚ)),
      (process_token F parse tok ⟨[], la, σ⟩).err.isSome = true ∧
      (process_token F parse tok ⟨[], la, σ⟩).state = ⟨[], la, σ⟩ ∧
      (process_token F parse tok ⟨[], la, σ⟩).out = []) ∧
    (∀ (k : String) (rest : List StackItem) (la : Option ℚ) (σ : List (String × ℚ)),
      (process_token F parse tok ⟨.Key k :: rest, la, σ⟩).err.isSome = true ∧
      (process_token F parse tok ⟨.Key k :: rest, la, σ⟩).state = ⟨.Key k :: rest, la, σ⟩ ∧
      (process_token F parse tok ⟨.Key k :: rest, la, σ⟩).out = []) ∧
    (∀ (a : ℚ) (rest : List StackItem) (la : Option ℚ) (σ : List (String × ℚ)),
      (process_token F parse tok ⟨.Number a :: rest, la, σ⟩).err = none ∧
      (process_token F parse tok ⟨.Number a :: rest, la, σ⟩).state
        = ⟨.Number a :: rest, la, σ⟩ ∧
      (tok = "hex" → (process_token F parse tok ⟨.Number a :: rest, la, σ⟩).out
        = [.line ("\nhex Base: 0x" ++ natToBaseStr 16 (i64Bits a))]) ∧
      (tok = "oct" → (process_token F parse tok ⟨.Number a :: rest, la, σ⟩).out
        = [.line ("\noct Base: 0o" ++ natToBaseStr 8 (i64Bits a))]) ∧
      (tok = "bin" → (process_token F parse tok ⟨.Number a :: rest, la, σ⟩).out
        = [.line ("\nbin Base: 0b" ++ natToBaseStr 2 (i64Bits a))])) := by
  fin_cases hmem <;>
    refine ⟨fun la σ => ?_, fun k rest la σ => ?_, fun a rest la σ => ?_⟩ <;>
      rw [process_token_not_quoted F parse _ _ (by decide) hp]
  · exact ⟨rfl, rfl, rfl⟩
  · exact ⟨rfl, rfl, rfl⟩
  · exact ⟨rfl, rfl, fun _ => rfl, fun h => absurd h (by decide),
      fun h => absurd h (by decide)⟩
  · exact ⟨rfl, rfl, rfl⟩
  · exact ⟨rfl, rfl, rfl⟩
  · exact ⟨rfl, rfl, fun h => absurd h (by decide), fun h => absurd h (by decide),
      fun _ => rfl⟩
  · exact ⟨rfl, rfl, rfl⟩
  · exact ⟨rfl, rfl, rfl⟩
  · exact ⟨rfl, rfl, fun h => absurd h (by decide), fun _ => rfl,
      fun h => absurd h (by decide)⟩

/-- Witness for `display_base_contract`: `255.99 hex` leaves the stack
holding `255.99` and emits a line containing `0xFF`. -/
theorem display_base_contract_witness :
    (process_token F0 parse0 "hex" ⟨[.Number (25599 / 100)], none, []⟩).err = none ∧
    (process_token F0 parse0 "hex" ⟨[.Number (25599 / 100)], none, []⟩).state
      = ⟨[.Number (25599 / 100)], none, []⟩ ∧
    (process_token F0 parse0 "hex" ⟨[.Number (25599 / 100)], none, []⟩).out
      = [.line "\nhex Base: 0xFF"] := by
  have h := ((display_base_contract F0 parse0 "hex" (by decide) rfl).2.2
    (25599 / 100) [] none [])
  refine ⟨h.1, h.2.1, ?_⟩
  rw [h.2.2.1 rfl]
  have htr : ratTrunc ((25599 : ℚ) / 100) = 255 := by
    rw [ratTrunc, if_neg (by norm_num), Int.floor_eq_iff]
    norm_num
  rw [show i64Bits ((25599 : ℚ) / 100) = 255 from by rw [i64Bits, htr]; decide]
  decide

/-! ## Success-shape and frame lemmas for the whole dispatcher -/

/-- A successful unary call leaves a `Number` on top. -/
theorem unaryCalculate_shape (f : ℚ → ℚ) (stk : List StackItem)
    (h : (unaryCalculate f stk).1 = none) :
    ∃ q t, (unaryCalculate f stk).2 = .Number q :: t := by
  rcases stk with _ | ⟨v | k, t⟩
  · simp [unaryCalculate] at h
  · exact ⟨f v, t, rfl⟩
  · simp [unaryCalculate] at h

/-- A successful binary call leaves a `Number` on top. -/
theorem binaryCalculate_shape (f : ℚ → ℚ → ℚ) (stk : List StackItem)
    (h : (binaryCalculate f stk).1 = none) :
    ∃ q t, (binaryCalculate f stk).2 = .Number q :: t := by
  rcases stk with _ | ⟨v | k, t⟩
  · simp [binaryCalculate] at h
  · rcases t with _ | ⟨v2 | k2, t2⟩
    · simp [binaryCalculate] at h
    · exact ⟨f v2 v, t2, rfl⟩
    · simp [binaryCalculate] at h
  · simp [binaryCalculate] at h

/-- A successful factorial call leaves a `Number` on top. -/
theorem factorial_shape (stk : List StackItem) (h : (factorial stk).1 = none) :
    ∃ q t, (factorial stk).2 = .Number q :: t := by
  rcases stk with _ | ⟨v | k, t⟩
  · simp [factorial] at h
  · rw [factorial] at h ⊢
    split_ifs at h ⊢
    exact ⟨_, t, rfl⟩
  · simp [factorial] at h

/-- A successful permutations call leaves a `Number` on top. -/
theorem permutations_shape (stk : List StackItem) (h : (permutations stk).1 = none) :
    ∃ q t, (permutations stk).2 = .Number q :: t := by
  rcases stk with _ | ⟨v | k, t⟩
  · simp [permutations] at h
  · rcases t with _ | ⟨v2 | k2, t2⟩
    · simp [permutations] at h
    · have h' : (permutationsChecked v2 v t2).1 = none := h
      show ∃ q t, (permutationsChecked v2 v t2).2 = .Number q :: t
      rw [permutationsChecked] at h' ⊢
      split_ifs at h' ⊢
      exact ⟨_, t2, rfl⟩
    · simp [permutations] at h
  · simp [permutations] at h

/-- A successful combinations call leaves a `Number` on top. -/
theorem combinations_shape (stk : List StackItem) (h : (combinations stk).1 = none) :
    ∃ q t, (combinations stk).2 = .Number q :: t := by
  rcases stk with _ | ⟨v | k, t⟩
  · simp [combinations] at h
  · rcases t with _ | ⟨v2 | k2, t2⟩
    · simp [combinations] at h
    · have h' : (combinationsChecked v2 v t2).1 = none := h
      show ∃ q t, (combinationsChecked v2 v t2).2 = .Number q :: t
      rw [combinationsChecked] at h' ⊢
      split_ifs at h' ⊢
      exact ⟨_, t2, rfl⟩
    · simp [combinations] at h
  · simp [combinations] at h

/-- A successful swap preserves the stack length. -/
theorem swap_shape (stk : List StackItem) (h : (swap stk).1 = none) :
    (swap stk).2.length = stk.length := by
  rcases stk with _ | ⟨a, _ | ⟨b, t⟩⟩
  · simp [swap] at h
  · simp [swap] at h
  · rfl

/-- A successful store consumed a `Key` over a `Number` and inserted the
pair into storage. -/
theorem store_shape (stk : List StackItem) (σ : List (String × ℚ))
    (h : (store stk σ).1 = none) :
    ∃ k v t, stk = .Key k :: .Number v :: t ∧ (store stk σ).2.1 = t ∧
      (store stk σ).2.2 = storageInsert σ k v := by
  rcases stk with _ | ⟨v | k, t⟩
  · simp [store] at h
  · simp [store] at h
  · rcases t with _ | ⟨v2 | k2, t2⟩
    · simp [store] at h
    · exact ⟨k, v2, t2, rfl, rfl, rfl⟩
    · simp [store] at h

/-- A failing store leaves storage untouched. -/
theorem store_err_storage (stk : List StackItem) (σ : List (String × ℚ))
    (h : (store stk σ).1 ≠ none) : (store stk σ).2.2 = σ := by
  rcases stk with _ | ⟨v | k, t⟩
  · rfl
  · rfl
  · rcases t with _ | ⟨v2 | k2, t2⟩
    · rfl
    · exact absurd rfl h
    · rfl

/-- A successful recall leaves a `Number` on top. -/
theorem recallOp_shape (stk : List StackItem) (σ : List (String × ℚ))
    (h : (recallOp stk σ).1 = none) :
    ∃ q t, (recallOp stk σ).2 = .Number q :: t := by
  rcases stk with _ | ⟨v | k, t⟩
  · simp [recallOp] at h
  · simp [recallOp] at h
  · cases hl : σ.lookup k with
    | none => simp [recallOp, hl] at h
    | some v => exact ⟨v, t, by simp [recallOp, hl]⟩

/-- A key found in the registry association list is one of its entries. -/
theorem lookup_mem {α β : Type} [BEq α] [LawfulBEq α] (a : α) (l : List (α × β)) (b : β)
    (h : List.lookup a l = some b) : (a, b) ∈ l := by
  induction l with
  | nil => simp [List.lookup] at h
  | cons p t ih =>
    obtain ⟨k, v⟩ := p
    rw [List.lookup_cons] at h
    cases hak : a == k
    · rw [hak] at h
      exact List.mem_cons_of_mem _ (ih h)
    · rw [hak] at h
      obtain rfl := eq_of_beq hak
      cases h
      exact List.mem_cons_self _ _

/-- Only the token `sto` is mapped to the `store` special handler. -/
theorem lookup_special_store (F : FloatOps) (tok g u : String)
    (h : (OPERATOR_DATA F).lookup tok = some (g, u, .Special "store")) : tok = "sto" := by
  have hm := lookup_mem tok (OPERATOR_DATA F) _ h
  simp only [OPERATOR_DATA, List.mem_cons, List.not_mem_nil, or_false, Prod.mk.injEq] at hm
  rcases hm with hm|hm|hm|hm|hm|hm|hm|hm|hm|hm|hm|hm|hm|hm|hm|hm|hm|hm|hm|hm|hm|hm|hm|hm|hm|hm|hm|hm|hm|hm|hm|hm|hm|hm|hm <;>
    simp_all

/-- Frame and success-shape facts for every special handler: the last-answer
slot is read-only, storage changes only via a successful `store`, and a
successful call leaves the stack empty, `Number`-topped, or no longer than
before. -/
theorem dispatchSpecial_spec (F : FloatOps) (name tok : String)
    (stk : List StackItem) (la : Option ℚ) (σ : List (String × ℚ)) :
    (dispatchSpecial F name tok ⟨stk, la, σ⟩).state.last_answer = la ∧
    ((dispatchSpecial F name tok ⟨stk, la, σ⟩).state.storage = σ ∨
      (name = "store" ∧ (dispatchSpecial F name tok ⟨stk, la, σ⟩).err = none ∧
        ∃ k v rest, stk = .Key k :: .Number v :: rest ∧
          (dispatchSpecial F name tok ⟨stk, la, σ⟩).state.storage = storageInsert σ k v)) ∧
    ((dispatchSpecial F name tok ⟨stk, la, σ⟩).err = none →
      ((dispatchSpecial F name tok ⟨stk, la, σ⟩).state.stack = [] ∨
       (∃ q t, (dispatchSpecial F name tok ⟨stk, la, σ⟩).state.stack = .Number q :: t) ∨
       (dispatchSpecial F name tok ⟨stk, la, σ⟩).state.stack.length ≤ stk.length)) := by
  by_cases h1 : name = "factorial"
  · subst h1
    have hd : dispatchSpecial F "factorial" tok ⟨stk, la, σ⟩
        = ⟨(factorial stk).1, ⟨(factorial stk).2, la, σ⟩, []⟩ := rfl
    rw [hd]
    exact ⟨rfl, Or.inl rfl, fun h => Or.inr (Or.inl (factorial_shape stk h))⟩
  by_cases h2 : name = "permutations"
  · subst h2
    have hd : dispatchSpecial F "permutations" tok ⟨stk, la, σ⟩
        = ⟨(permutations stk).1, ⟨(permutations stk).2, la, σ⟩, []⟩ := rfl
    rw [hd]
    exact ⟨rfl, Or.inl rfl, fun h => Or.inr (Or.inl (permutations_shape stk h))⟩
  by_cases h3 : name = "combinations"
  · subst h3
    have hd : dispatchSpecial F "combinations" tok ⟨stk, la, σ⟩
        = ⟨(combinations stk).1, ⟨(combinations stk).2, la, σ⟩, []⟩ := rfl
    rw [hd]
    exact ⟨rfl, Or.inl rfl, fun h => Or.inr (Or.inl (combinations_shape stk h))⟩
  by_cases h4 : name = "swap"
  · subst h4
    have hd : dispatchSpecial F "swap" tok ⟨stk, la, σ⟩
        = ⟨(swap stk).1, ⟨(swap stk).2, la, σ⟩, []⟩ := rfl
    rw [hd]
    exact ⟨rfl, Or.inl rfl, fun h => Or.inr (Or.inr (le_of_eq (swap_shape stk h)))⟩
  by_cases h5 : name = "clear"
  · subst h5
    have hd : dispatchSpecial F "clear" tok ⟨stk, la, σ⟩
        = ⟨none, ⟨[], la, σ⟩, []⟩ := rfl
    rw [hd]
    exact ⟨rfl, Or.inl rfl, fun _ => Or.inl rfl⟩
  by_cases h6 : name = "answer"
  · subst h6
    cases la with
    | none =>
      have hd : dispatchSpecial F "answer" tok ⟨stk, none, σ⟩
          = ⟨some "No previous answer available ('a' is empty)", ⟨stk, none, σ⟩, []⟩ := rfl
      rw [hd]
      exact ⟨rfl, Or.inl rfl, fun h => by simp at h⟩
    | some val =>
      have hd : dispatchSpecial F "answer" tok ⟨stk, some val, σ⟩
          = ⟨none, ⟨.Number val :: stk, some val, σ⟩, []⟩ := rfl
      rw [hd]
      exact ⟨rfl, Or.inl rfl, fun _ => Or.inr (Or.inl ⟨val, stk, rfl⟩)⟩
  by_cases h7 : name = "store"
  · subst h7
    have hd : dispatchSpecial F "store" tok ⟨stk, la, σ⟩
        = ⟨(store stk σ).1, ⟨(store stk σ).2.1, la, (store stk σ).2.2⟩, []⟩ := rfl
    rw [hd]
    cases hs : (store stk σ).1 with
    | some e =>
      refine ⟨rfl, Or.inl (store_err_storage stk σ (by rw [hs]; simp)), fun h => ?_⟩
      simp at h
    | none =>
      obtain ⟨k, v, t, hstk, hsk, hσ⟩ := store_shape stk σ hs
      refine ⟨rfl, Or.inr ⟨rfl, rfl, k, v, t, hstk, hσ⟩, fun _ => Or.inr (Or.inr ?_)⟩
      rw [hsk, hstk]
      simp only [List.length_cons]
      omega
  by_cases h8 : name = "recall"
  · subst h8
    have hd : dispatchSpecial F "recall" tok ⟨stk, la, σ⟩
        = ⟨(recallOp stk σ).1, ⟨(recallOp stk σ).2, la, σ⟩, []⟩ := rfl
    rw [hd]
    exact ⟨rfl, Or.inl rfl, fun h => Or.inr (Or.inl (recallOp_shape stk σ h))⟩
  by_cases h9 : name = "display_base"
  · subst h9
    have hd : dispatchSpecial F "display_base" tok ⟨stk, la, σ⟩
        = ⟨(display_base stk tok).1, ⟨stk, la, σ⟩, (display_base stk tok).2⟩ := rfl
    rw [hd]
    exact ⟨rfl, Or.inl rfl, fun _ => Or.inr (Or.inr le_rfl)⟩
  by_cases h10 : name = "help"
  · subst h10
    rcases stk with _ | ⟨v | key, t⟩
    · have hd : dispatchSpecial F "help" tok ⟨[], la, σ⟩
          = ⟨(display_help F "").1, ⟨[], la, σ⟩, (display_help F "").2⟩ := rfl
      rw [hd]
      exact ⟨rfl, Or.inl rfl, fun _ => Or.inl rfl⟩
    · have hd : dispatchSpecial F "help" tok ⟨.Number v :: t, la, σ⟩
          = ⟨(display_help F "").1, ⟨.Number v :: t, la, σ⟩, (display_help F "").2⟩ := rfl
      rw [hd]
      exact ⟨rfl, Or.inl rfl, fun _ => Or.inr (Or.inl ⟨v, t, rfl⟩)⟩
    · have hd : dispatchSpecial F "help" tok ⟨.Key key :: t, la, σ⟩
          = (if ((OPERATOR_DATA F).lookup (strToLower (trimMatchesChar key '"'))).isSome = true then
              ⟨(display_help F (strToLower (trimMatchesChar key '"'))).1, ⟨t, la, σ⟩,
               (display_help F (strToLower (trimMatchesChar key '"'))).2⟩
            else
              ⟨(display_help F "").1, ⟨.Key key :: t, la, σ⟩, (display_help F "").2⟩) := rfl
      rw [hd]
      cases hs : ((OPERATOR_DATA F).lookup (strToLower (trimMatchesChar key '"'))).isSome with
      | true =>
        rw [if_pos rfl]
        exact ⟨rfl, Or.inl rfl, fun _ => Or.inr (Or.inr (Nat.le_succ _))⟩
      | false =>
        rw [if_neg Bool.false_ne_true]
        exact ⟨rfl, Or.inl rfl, fun _ => Or.inr (Or.inr le_rfl)⟩
  have hd : dispatchSpecial F name tok ⟨stk, la, σ⟩
      = ⟨some "Internal operator error (Special command missing handler)", ⟨stk, la, σ⟩, []⟩ := by
    unfold dispatchSpecial
    rw [if_neg h1, if_neg h2, if_neg h3, if_neg h4, if_neg h5, if_neg h6, if_neg h7,
      if_neg h8, if_neg h9, if_neg h10]
  rw [hd]
  exact ⟨rfl, Or.inl rfl, fun h => by simp at h⟩

/-- `dispatchSpecial_spec` lifted over the registry lookup: for every token,
the last-answer slot is read-only, storage changes only when the token is
`sto` and the store succeeds, and a successful call leaves the stack empty,
`Number`-topped, or no longer than before. -/
theorem dispatch_spec (F : FloatOps) (tok : String)
    (stk : List StackItem) (la : Option ℚ) (σ : List (String × ℚ)) :
    (dispatch F tok ⟨stk, la, σ⟩).state.last_answer = la ∧
    ((dispatch F tok ⟨stk, la, σ⟩).state.storage = σ ∨
      (tok = "sto" ∧ (dispatch F tok ⟨stk, la, σ⟩).err = none ∧
        ∃ k v rest, stk = .Key k :: .Number v :: rest ∧
          (dispatch F tok ⟨stk, la, σ⟩).state.storage = storageInsert σ k v)) ∧
    ((dispatch F tok ⟨stk, la, σ⟩).err = none →
      ((dispatch F tok ⟨stk, la, σ⟩).state.stack = [] ∨
       (∃ q t, (dispatch F tok ⟨stk, la, σ⟩).state.stack = .Number q :: t) ∨
       (dispatch F tok ⟨stk, la, σ⟩).state.stack.length ≤ stk.length)) := by
  rcases hlook : (OPERATOR_DATA F).lookup tok with _ | ⟨g, u, act⟩
  · have hd : dispatch F tok ⟨stk, la, σ⟩
        = ⟨some "Unrecognized token or operator", ⟨stk, la, σ⟩, []⟩ := by
      rw [dispatch, hlook]
    rw [hd]
    exact ⟨rfl, Or.inl rfl, fun h => by simp at h⟩
  · cases act with
    | PushConstant v =>
      have hd : dispatch F tok ⟨stk, la, σ⟩ = ⟨none, ⟨.Number v :: stk, la, σ⟩, []⟩ := by
        rw [dispatch, hlook]
      rw [hd]
      exact ⟨rfl, Or.inl rfl, fun _ => Or.inr (Or.inl ⟨v, stk, rfl⟩)⟩
    | Unary f =>
      have hd : dispatch F tok ⟨stk, la, σ⟩
          = ⟨(unaryCalculate f stk).1, ⟨(unaryCalculate f stk).2, la, σ⟩, []⟩ := by
        rw [dispatch, hlook]
      rw [hd]
      exact ⟨rfl, Or.inl rfl, fun h => Or.inr (Or.inl (unaryCalculate_shape f stk h))⟩
    | Binary f =>
      have hd : dispatch F tok ⟨stk, la, σ⟩
          = ⟨(binaryCalculate f stk).1, ⟨(binaryCalculate f stk).2, la, σ⟩, []⟩ := by
        rw [dispatch, hlook]
      rw [hd]
      exact ⟨rfl, Or.inl rfl, fun h => Or.inr (Or.inl (binaryCalculate_shape f stk h))⟩
    | Special name =>
      have hd : dispatch F tok ⟨stk, la, σ⟩ = dispatchSpecial F name tok ⟨stk, la, σ⟩ := by
        rw [dispatch, hlook]
      rw [hd]
      obtain ⟨hla, hsto, hshape⟩ := dispatchSpecial_spec F name tok stk la σ
      refine ⟨hla, ?_, hshape⟩
      rcases hsto with h | ⟨hname, herr, k, v, rest, hstk, hins⟩
      · exact Or.inl h
      · exact Or.inr ⟨lookup_special_store F tok g u (hname ▸ hlook), herr, k, v, rest, hstk, hins⟩

/-! ## C10: frame property of `process_token` -/

/-- C10: for every token and state, `process_token` never modifies the
last-answer slot, and it modifies storage only when the token is `sto` and
both pops succeed, in which case the change is exactly one insert of the
popped key/value pair; every other token, and every failing call, leaves
storage unchanged. -/
theorem process_token_frame (F : FloatOps) (parse : String → Option ℚ)
    (tok : String) (s : CalcState) :
    (process_token F parse tok s).state.last_answer = s.last_answer ∧
    ((process_token F parse tok s).state.storage = s.storage ∨
      (tok = "sto" ∧ (process_token F parse tok s).err = none ∧
        ∃ k v rest, s.stack = .Key k :: .Number v :: rest ∧
          (process_token F parse tok s).state.storage = storageInsert s.storage k v)) := by
  obtain ⟨stk, la, σ⟩ := s
  cases hq : is_quoted tok
  · cases hparse : parse (cleanedToken tok) with
    | none =>
      rw [process_token_not_quoted F parse tok _ hq hparse]
      obtain ⟨hla, hsto, -⟩ := dispatch_spec F tok stk la σ
      exact ⟨hla, hsto⟩
    | some num =>
      have hpt : process_token F parse tok ⟨stk, la, σ⟩
          = ⟨none, ⟨.Number num :: stk, la, σ⟩, []⟩ := by
        rw [process_token, if_neg (by simp [hq]), hparse]
      rw [hpt]
      exact ⟨rfl, Or.inl rfl⟩
  · have hpt : process_token F parse tok ⟨stk, la, σ⟩
        = ⟨none, ⟨.Key (trimMatchesChar tok '"') :: stk, la, σ⟩, []⟩ := by
      rw [process_token, if_pos (by simp [hq])]
    rw [hpt]
    exact ⟨rfl, Or.inl rfl⟩

/-! ## C9: quoted-key classification -/

/-- C9 (amended): `process_token` succeeds and pushes the token as a `Key`
(with all surrounding quote characters stripped) exactly when the token
starts and ends with a quote character and is longer than one character.
The content between the quotes may be empty: the two-character token `""`
is pushed as `Key ""`. -/
theorem quoted_key_classification (F : FloatOps) (parse : String → Option ℚ)
    (tok : String) (s : CalcState) :
    ((process_token F parse tok s).err = none ∧
     (process_token F parse tok s).state.stack = .Key (trimMatchesChar tok '"') :: s.stack)
    ↔ is_quoted tok = true := by
  obtain ⟨stk, la, σ⟩ := s
  constructor
  · rintro ⟨h1, h2⟩
    by_contra hq
    rw [Bool.not_eq_true] at hq
    cases hparse : parse (cleanedToken tok) with
    | some num =>
      have hpt : process_token F parse tok ⟨stk, la, σ⟩
          = ⟨none, ⟨.Number num :: stk, la, σ⟩, []⟩ := by
        rw [process_token, if_neg (by simp [hq]), hparse]
      rw [hpt] at h2
      simp at h2
    | none =>
      rw [process_token_not_quoted F parse tok _ hq hparse] at h1 h2
      obtain ⟨-, -, hshape⟩ := dispatch_spec F tok stk la σ
      rcases hshape h1 with h | ⟨q, t, h⟩ | h
      · rw [h2] at h
        simp at h
      · rw [h2] at h
        simp at h
      · rw [h2] at h
        simp at h
  · intro hq
    have hpt : process_token F parse tok ⟨stk, la, σ⟩
        = ⟨none, ⟨.Key (trimMatchesChar tok '"') :: stk, la, σ⟩, []⟩ := by
      rw [process_token, if_pos (by simp [hq])]
    rw [hpt]
    exact ⟨rfl, rfl⟩

/-- C9 counterexample: the two-character token `""` is wrapped in quotes but
has no content, yet `process_token` pushes it as `Key ""` and succeeds — so
"a quoted token without content is not pushed as a Key" is false. -/
theorem quoted_key_cex :
    (process_token F0 parse0 "\"\"" ⟨[], none, []⟩).err = none ∧
    (process_token F0 parse0 "\"\"" ⟨[], none, []⟩).state.stack = [.Key ""] ∧
    trimMatchesChar "\"\"" '"' = "" :=
  ⟨rfl, rfl, rfl⟩

end KalkRs
